import Mathlib

/-!
Shallow embedding of the TDOA3 tag driver
(src/src/deck/drivers/src/lpsTdoa3Tag.c) of the crazyflie-firmware
repository, together with theorems settling the specification claims.

The captured radio frame is modelled as a list of bytes (`List Nat`,
reads normalised by `% 256`).  Calls into the external tdoa engine and
the telemetry variables are modelled as an explicit effect trace: each
`tdoaStorageSet...` call, statistics update or telemetry write that the
C code performs is emitted, in program order, as one element of the
trace.  Floating point telemetry values (snr, power difference, the
metre conversion of a time of flight) are outside the embedding; the
corresponding effects record that the write happened and the raw
integer datum it was derived from.
-/

/-- PACKET_TYPE_TDOA3 from the source. -/
def PACKET_TYPE_TDOA3 : Nat := 0x30

/-- Read one byte of the captured buffer; out of range reads of the
fixed-size packet structure yield 0. -/
def byteAt (p : List Nat) (i : Nat) : Nat := p.getD i 0 % 256

/-- Little-endian read of a packed uint16_t field. -/
def readU16 (p : List Nat) (i : Nat) : Nat :=
  byteAt p i + 256 * byteAt p (i + 1)

/-- Little-endian read of a packed uint32_t field. -/
def readU32 (p : List Nat) (i : Nat) : Nat :=
  byteAt p i + 256 * byteAt p (i + 1) + 65536 * byteAt p (i + 2) +
    16777216 * byteAt p (i + 3)

/-- isValidTimeStamp from the source: a 64-bit widened timestamp is
valid iff it is non-zero. -/
def isValidTimeStamp (anchorRxTime : Int) : Bool := anchorRxTime != 0

/-- The fields of tdoaEngineState.stats that updateRemoteData reads
(stats->anchorId and stats->remoteAnchorId). -/
structure TdoaStatsEnv where
  anchorId : Nat
  remoteAnchorId : Nat
deriving DecidableEq, Repr

/-- One observable call / write performed by updateRemoteData:
tdoaStorageSetRemoteRxTime, tdoaStorageSetTimeOfFlight, the stats->tof
write, and the log_anchor{1,2}_tof telemetry writes (raw ticks; the
float conversion to metres is outside the embedding). -/
inductive CtxEffect where
  | setRemoteRxTime (remoteId : Nat) (rxTime : Int) (seqNr : Nat)
  | setTimeOfFlight (remoteId : Nat) (tof : Int)
  | setStatsTof (tof : Nat)
  | logAnchorTof (anchor : Nat) (rawTof : Nat)
deriving DecidableEq, Repr

/-- The record-walking loop of updateRemoteData.  The first `Nat`
argument is the remaining record count, the second the byte cursor
(anchorDataPtr − packet).  `anchorId` is tdoaStorageGetId(anchorCtx).
Returns the final cursor and the effect trace in program order. -/
def updateRemoteDataLoop (stats : TdoaStatsEnv) (anchorId : Nat) (p : List Nat) :
    Nat → Nat → Nat × List CtxEffect
  | 0, ofs => (ofs, [])
  | n + 1, ofs =>
    let remoteId := byteAt p ofs
    let seqByte := byteAt p (ofs + 1)
    let remoteRxTime : Int := readU32 p (ofs + 2)
    let remoteSeqNr := seqByte &&& 127
    let rxEff :=
      if isValidTimeStamp remoteRxTime then
        [CtxEffect.setRemoteRxTime remoteId remoteRxTime remoteSeqNr]
      else []
    let hasDistance : Bool := seqByte &&& 128 != 0
    if hasDistance then
      let tof : Int := readU16 p (ofs + 6)
      let tofEff :=
        if isValidTimeStamp tof then
          CtxEffect.setTimeOfFlight remoteId tof ::
            ((if anchorId = stats.anchorId ∧ remoteId = stats.remoteAnchorId then
                [CtxEffect.setStatsTof (readU16 p (ofs + 6))]
              else []) ++
             (if anchorId = 1 then [CtxEffect.logAnchorTof 1 (readU16 p (ofs + 6))] else []) ++
             (if anchorId = 2 then [CtxEffect.logAnchorTof 2 (readU16 p (ofs + 6))] else []))
        else []
      let rest := updateRemoteDataLoop stats anchorId p n (ofs + 8)
      (rest.1, rxEff ++ tofEff ++ rest.2)
    else
      let rest := updateRemoteDataLoop stats anchorId p n (ofs + 6)
      (rest.1, rxEff ++ rest.2)

/-- updateRemoteData from the source: reads remoteCount from header
offset 6, walks the records starting at offset 7 (the offset of the
remoteAnchorData member), and returns the consumed byte length
(final cursor minus packet base) together with the effect trace. -/
def updateRemoteData (stats : TdoaStatsEnv) (anchorId : Nat) (p : List Nat) :
    Nat × List CtxEffect :=
  updateRemoteDataLoop stats anchorId p (byteAt p 6) 7

/-- Wire-level remote anchor record, following the spec layout: id
byte, seq byte (bit 7 = hasDistance), 32-bit rx timestamp, and, for
Full records only, a 16-bit distance. -/
structure RemoteRecord where
  id : Nat
  seq : Nat
  rxTs : Nat
  distance : Nat
deriving DecidableEq, Repr

/-- The hasDistance flag of a record: bit 7 of its sequence byte. -/
def hasDistanceBit (r : RemoteRecord) : Bool := r.seq &&& 128 != 0

/-- Spec record width: 8 bytes for a Full record, 6 for a Short one. -/
def recordWidth (r : RemoteRecord) : Nat := if hasDistanceBit r then 8 else 6

/-- Little-endian encoding of a uint32_t field. -/
def u32le (x : Nat) : List Nat :=
  [x % 256, x / 256 % 256, x / 65536 % 256, x / 16777216 % 256]

/-- Little-endian encoding of a uint16_t field. -/
def u16le (x : Nat) : List Nat := [x % 256, x / 256 % 256]

/-- Wire encoding of one remote anchor record (spec section 6). -/
def encodeRecord (r : RemoteRecord) : List Nat :=
  r.id :: r.seq ::
    (u32le r.rxTs ++ (if hasDistanceBit r then u16le r.distance else []))

/-- Wire encoding of a record sequence, packed contiguously. -/
def encodeRecords : List RemoteRecord → List Nat
  | [] => []
  | r :: rs => encodeRecord r ++ encodeRecords rs

/-- Ranging packet header fields (rangePacketHeader3_t). -/
structure FrameHeader where
  ptype : Nat
  seq : Nat
  txTs : Nat
deriving DecidableEq, Repr

/-- Wire encoding of a whole ranging frame payload: type byte, seq
byte, 32-bit tx timestamp, remoteCount byte, then the records. -/
def encodeFrame (h : FrameHeader) (rs : List RemoteRecord) : List Nat :=
  h.ptype :: h.seq :: (u32le h.txTs ++ (rs.length :: encodeRecords rs))

/-- Well-formedness of a record: every field fits its wire width. -/
def wfRecord (r : RemoteRecord) : Prop :=
  r.id < 256 ∧ r.seq < 256 ∧ r.rxTs < 4294967296 ∧ r.distance < 65536

instance (r : RemoteRecord) : Decidable (wfRecord r) := by
  unfold wfRecord; infer_instance

/-- Well-formedness of a frame: header fields fit their wire widths,
the record count fits the remoteCount byte, all records well formed. -/
def wfFrame (h : FrameHeader) (rs : List RemoteRecord) : Prop :=
  h.ptype < 256 ∧ h.seq < 256 ∧ h.txTs < 4294967296 ∧ rs.length < 256 ∧
    ∀ r ∈ rs, wfRecord r

instance (h : FrameHeader) (rs : List RemoteRecord) : Decidable (wfFrame h rs) := by
  unfold wfFrame; infer_instance

/-- The effect trace updateRemoteData emits for a single record. -/
def recordEffects (stats : TdoaStatsEnv) (anchorId : Nat) (r : RemoteRecord) :
    List CtxEffect :=
  (if r.rxTs ≠ 0 then
      [CtxEffect.setRemoteRxTime r.id (r.rxTs : Int) (r.seq &&& 127)]
    else []) ++
  (if hasDistanceBit r then
      if r.distance ≠ 0 then
        CtxEffect.setTimeOfFlight r.id (r.distance : Int) ::
          ((if anchorId = stats.anchorId ∧ r.id = stats.remoteAnchorId then
              [CtxEffect.setStatsTof r.distance]
            else []) ++
           (if anchorId = 1 then [CtxEffect.logAnchorTof 1 r.distance] else []) ++
           (if anchorId = 2 then [CtxEffect.logAnchorTof 2 r.distance] else []))
      else []
    else [])

/-- Concatenated per-record effect traces. -/
def effectsOfRecords (stats : TdoaStatsEnv) (anchorId : Nat) :
    List RemoteRecord → List CtxEffect
  | [] => []
  | r :: rs => recordEffects stats anchorId r ++ effectsOfRecords stats anchorId rs

/-- Recognizer for setRemoteRxTime effects. -/
def isSetRemoteRxTime : CtxEffect → Bool
  | CtxEffect.setRemoteRxTime _ _ _ => true
  | _ => false

/-- Recognizer for setTimeOfFlight effects. -/
def isSetTimeOfFlight : CtxEffect → Bool
  | CtxEffect.setTimeOfFlight _ _ => true
  | _ => false

/-- Modelled from the spec: the one-byte header tag that identifies the
LPP short packet format (LPP_HEADER_SHORT_PACKET, declared in lpp.h,
which is outside src/).  The theorems below depend only on a payload
byte being equal or not equal to this tag, never on its numeric value. -/
def LPP_HEADER_SHORT_PACKET : Nat := 0xF0

/-- Modelled from the spec: the dispatch tag for the anchor-position
content type (LPP_SHORT_ANCHORPOS, declared in lpp.h, outside src/).
Only equality with it is ever used. -/
def LPP_SHORT_ANCHORPOS : Nat := 0x01

/-- One observable action of rxcallback and its helpers beyond the
updateRemoteData effects: the packetsReceived statistics count, the
log_snr / log_powerdiff telemetry writes (float values abstracted),
the anchor context fetch, the two engine calls after decoding, the
anchor position commit and rx-quality telemetry of the LPP path. -/
inductive RxEffect where
  | countPacketReceived
  | logSnrPowerdiff (anchor : Nat)
  | getAnchorCtx (anchorId : Nat)
  | ctx (e : CtxEffect)
  | processPacket (txAn rxAn : Int)
  | setRxTxData (rxAn txAn : Int) (seqNr : Nat)
  | setAnchorPosition
  | logRxQuality (anchor : Nat)
deriving DecidableEq, Repr

/-- handleLppShortPacket from the source: reads the type byte at
`dataOfs` (data[0] of the pointer it is handed) unconditionally, and on
the anchor-position type commits the position and the per-anchor
rx-quality telemetry. -/
def handleLppShortPacket (anchorId : Nat) (payload : List Nat) (dataOfs : Nat) :
    List RxEffect :=
  if byteAt payload dataOfs = LPP_SHORT_ANCHORPOS then
    RxEffect.setAnchorPosition ::
      ((if anchorId = 1 then [RxEffect.logRxQuality 1] else []) ++
       (if anchorId = 2 then [RxEffect.logRxQuality 2] else []))
  else []

/-- handleLppPacket from the source.  `macHdrLen` models
MAC802154_HEADER_LENGTH (mac.h, outside src/); the int32_t length
arithmetic is carried out in `Int` exactly as written.  Besides the
effect list it returns the offset of the type byte that
handleLppShortPacket reads, when that call happens (the source computes
it as startOfLppDataInPayload + 1 and only guards lppDataLength > 0). -/
def handleLppPacket (macHdrLen dataLength rangePacketLength : Nat)
    (payload : List Nat) (anchorId : Nat) : List RxEffect × Option Nat :=
  let payloadLength : Int := (dataLength : Int) - (macHdrLen : Int)
  let startOfLppDataInPayload : Int := (rangePacketLength : Int)
  let lppDataLength : Int := payloadLength - startOfLppDataInPayload
  if lppDataLength > 0 then
    if byteAt payload rangePacketLength = LPP_HEADER_SHORT_PACKET then
      (handleLppShortPacket anchorId payload (rangePacketLength + 1),
        some (rangePacketLength + 1))
    else ([], none)
  else ([], none)

/-- The inputs rxcallback obtains from the radio driver for one
received frame: the MAC source address, the captured payload bytes of
the fixed packet structure, the reported frame length and the local
receive timestamp. -/
structure RxInput where
  sourceAddress : Nat
  payload : List Nat
  dataLength : Nat
  arrival : Nat
deriving DecidableEq, Repr

/-- rxcallback from the source: counts the packet, records snr and
power-difference telemetry for source anchors 1 and 2, and when the
first payload byte carries the TDOA3 tag fetches the anchor context,
decodes the ranging payload, hands the timestamps to the engine,
commits the rx/tx pair, handles any trailing LPP data, and latches
rangingOk.  Returns the effect trace and the new rangingOk value. -/
def rxcallback (macHdrLen : Nat) (stats : TdoaStatsEnv) (inp : RxInput)
    (rangingOk : Bool) : List RxEffect × Bool :=
  let anchorId := inp.sourceAddress &&& 255
  let preEffs := RxEffect.countPacketReceived ::
    (if anchorId = 1 then [RxEffect.logSnrPowerdiff 1]
     else if anchorId = 2 then [RxEffect.logSnrPowerdiff 2] else [])
  if byteAt inp.payload 0 = PACKET_TYPE_TDOA3 then
    let txAn : Int := readU32 inp.payload 2
    let seqNr := byteAt inp.payload 1 &&& 127
    let upd := updateRemoteData stats anchorId inp.payload
    let lpp := handleLppPacket macHdrLen inp.dataLength upd.1 inp.payload anchorId
    (preEffs ++
      (RxEffect.getAnchorCtx anchorId ::
        (upd.2.map RxEffect.ctx ++
          (RxEffect.processPacket txAn (inp.arrival : Int) ::
            RxEffect.setRxTxData (inp.arrival : Int) txAn seqNr :: lpp.1))),
      true)
  else (preEffs, rangingOk)

/-- The event alphabet of onEvent.  The four named constructors model
the four enum values the switch recognizes; `unknown` models every
other value of the C enum, which the default branch catches. -/
inductive UwbEvent where
  | packetReceived
  | timeout
  | receiveTimeout
  | packetSent
  | unknown (code : Nat)
deriving DecidableEq, Repr

/-- The externally visible actions of one onEvent invocation: the
rxcallback trace (empty unless the event was packetReceived), whether
sendLppShort transmitted the queued packet, whether
setRadioInReceiveMode was called, and whether tdoaStatsUpdate ran. -/
structure OnEventActions where
  rxTrace : List RxEffect
  transmit : Bool
  rearmReceive : Bool
  statsUpdated : Bool
deriving DecidableEq, Repr

/-- The environment of one onEvent invocation: the MAC header length,
the stats ids, the frame the radio would deliver on packetReceived, and
whether the single-slot outgoing LPP queue holds a packet
(lpsGetLppShort succeeding). -/
structure EventEnv where
  macHdrLen : Nat
  stats : TdoaStatsEnv
  rx : RxInput
  lppQueued : Bool
deriving DecidableEq, Repr

/-- onEvent from the source.  The switch dispatches on the event; the
default branch is ASSERT_FAILED, modelled as `none` (the process
terminates, no post-processing happens).  Every recognized event then
runs the shared tail: transmit the queued LPP packet if there is one,
otherwise re-arm the receiver, then update the statistics. -/
def onEvent (env : EventEnv) (ev : UwbEvent) (rangingOk : Bool) :
    Option (OnEventActions × Bool) :=
  match ev with
  | UwbEvent.packetReceived =>
    let res := rxcallback env.macHdrLen env.stats env.rx rangingOk
    some ({ rxTrace := res.1, transmit := env.lppQueued,
            rearmReceive := !env.lppQueued, statsUpdated := true }, res.2)
  | UwbEvent.timeout =>
    some ({ rxTrace := [], transmit := env.lppQueued,
            rearmReceive := !env.lppQueued, statsUpdated := true }, rangingOk)
  | UwbEvent.receiveTimeout =>
    some ({ rxTrace := [], transmit := env.lppQueued,
            rearmReceive := !env.lppQueued, statsUpdated := true }, rangingOk)
  | UwbEvent.packetSent =>
    some ({ rxTrace := [], transmit := env.lppQueued,
            rearmReceive := !env.lppQueued, statsUpdated := true }, rangingOk)
  | UwbEvent.unknown _ => none

/-- rangingOk right after Initialize runs (it assigns false). -/
def initRangingOk : Bool := false

/-- Run a sequence of events through onEvent, tracking rangingOk;
`none` once an unrecognized event kills the process. -/
def runEvents : List (EventEnv × UwbEvent) → Bool → Option Bool
  | [], st => some st
  | p :: rest, st =>
    match onEvent p.1 p.2 st with
    | none => none
    | some r => runEvents rest r.2

/-- Stats environment whose instrumented pair matches no anchor id used
in the concrete frames below. -/
def stats0 : TdoaStatsEnv := ⟨255, 255⟩

/-- The end-to-end scenario frame of the spec: header
{type 0x30, seq 0x05, txTs 1000, remoteCount 2}, a Full record
{id 7, seq 0x81, rxTs 500, distance 200} and a Short record
{id 9, seq 0x02, rxTs 300}. -/
def frame6 : List Nat :=
  encodeFrame ⟨0x30, 0x05, 1000⟩ [⟨7, 0x81, 500, 200⟩, ⟨9, 0x02, 300, 0⟩]

/-- A captured buffer whose declared 7-byte frame (remoteCount = 1, no
record bytes) is followed by 6 stale bytes: the declared count implies
reading past the frame. -/
def bufC3 : List Nat := [0x30, 0, 0, 0, 0, 0, 1, 5, 2, 1, 0, 0, 0]

/-- A received frame from source anchor 1 whose first payload byte is
0x31, not the TDOA3 tag. -/
def rxInputNonTdoa : RxInput := ⟨1, [0x31, 0, 0, 0, 0, 0, 0], 28, 0⟩

/-- A received frame from source anchor 3 carrying the scenario frame. -/
def rxInputTdoa : RxInput := ⟨3, frame6, 42, 12345⟩

/-- A concrete event environment with an empty outgoing queue. -/
def envIdle : EventEnv := ⟨21, stats0, rxInputNonTdoa, false⟩

/-- A concrete event environment delivering the scenario frame, with
an empty outgoing queue. -/
def envRxTdoa : EventEnv := ⟨21, stats0, rxInputTdoa, false⟩

/-- A payload whose single declared trailing byte (at offset 7) is the
LPP short-packet header tag. -/
def payloadC10 : List Nat := [0, 0, 0, 0, 0, 0, 0, 0xF0]

/-- Witness header for quantified frame theorems. -/
def headerW : FrameHeader := ⟨0x30, 0x05, 1000⟩

/-- Witness records: a Full record with data, a Short record with a
zero rx timestamp, and a Full record with a zero distance. -/
def recordsW : List RemoteRecord :=
  [⟨7, 0x81, 500, 200⟩, ⟨9, 0x02, 0, 0⟩, ⟨4, 0x83, 100, 0⟩]

lemma byteAt_append_add (pre l : List Nat) (j : Nat) :
    byteAt (pre ++ l) (pre.length + j) = byteAt l j := by
  unfold byteAt
  rw [List.getD_append_right _ _ _ _ (by omega)]
  congr 2
  omega

lemma readU32_append_add (pre l : List Nat) (j : Nat) :
    readU32 (pre ++ l) (pre.length + j) = readU32 l j := by
  simp only [readU32, Nat.add_assoc, byteAt_append_add]

lemma readU16_append_add (pre l : List Nat) (j : Nat) :
    readU16 (pre ++ l) (pre.length + j) = readU16 l j := by
  simp only [readU16, Nat.add_assoc, byteAt_append_add]

lemma encodeRecord_length (r : RemoteRecord) :
    (encodeRecord r).length = recordWidth r := by
  unfold encodeRecord recordWidth u32le u16le
  cases h : hasDistanceBit r <;> simp [h]

lemma byteAt_encodeRecord_id (r : RemoteRecord) (tail : List Nat) (h : r.id < 256) :
    byteAt (encodeRecord r ++ tail) 0 = r.id := by
  show r.id % 256 = r.id
  omega

lemma byteAt_encodeRecord_seq (r : RemoteRecord) (tail : List Nat) (h : r.seq < 256) :
    byteAt (encodeRecord r ++ tail) 1 = r.seq := by
  show r.seq % 256 = r.seq
  omega

lemma readU32_encodeRecord_rxTs (r : RemoteRecord) (tail : List Nat)
    (h : r.rxTs < 4294967296) :
    readU32 (encodeRecord r ++ tail) 2 = r.rxTs := by
  show r.rxTs % 256 % 256 + 256 * (r.rxTs / 256 % 256 % 256) +
        65536 * (r.rxTs / 65536 % 256 % 256) +
        16777216 * (r.rxTs / 16777216 % 256 % 256) = r.rxTs
  omega

lemma readU16_encodeRecord_distance (r : RemoteRecord) (tail : List Nat)
    (hb : hasDistanceBit r = true) (h : r.distance < 65536) :
    readU16 (encodeRecord r ++ tail) 6 = r.distance := by
  have he : encodeRecord r = r.id :: r.seq :: (u32le r.rxTs ++ u16le r.distance) := by
    simp [encodeRecord, hb]
  rw [he]
  show r.distance % 256 % 256 + 256 * (r.distance / 256 % 256 % 256) = r.distance
  omega

lemma isValidTimeStamp_natCast (x : Nat) : isValidTimeStamp (x : Int) = (x != 0) := by
  rw [Bool.eq_iff_iff]
  simp [isValidTimeStamp, bne_iff_ne, Int.natCast_eq_zero]

lemma updateRemoteDataLoop_encode (stats : TdoaStatsEnv) (anchorId : Nat)
    (rs : List RemoteRecord) (pre rest : List Nat) (hw : ∀ r ∈ rs, wfRecord r) :
    updateRemoteDataLoop stats anchorId (pre ++ (encodeRecords rs ++ rest))
        rs.length pre.length
      = (pre.length + (rs.map recordWidth).sum, effectsOfRecords stats anchorId rs) := by
  induction rs generalizing pre with
  | nil => simp [encodeRecords, updateRemoteDataLoop, effectsOfRecords]
  | cons r rs ih =>
    obtain ⟨hid, hseq, hrx, hdist⟩ := hw r (by simp)
    have hw2 : ∀ x ∈ rs, wfRecord x := fun x hx => hw x (by simp [hx])
    have hbuf : encodeRecords (r :: rs) ++ rest
        = encodeRecord r ++ (encodeRecords rs ++ rest) := by
      simp [encodeRecords]
    rw [hbuf]
    have h0 : byteAt (pre ++ (encodeRecord r ++ (encodeRecords rs ++ rest))) pre.length
        = r.id := by
      have := byteAt_append_add pre (encodeRecord r ++ (encodeRecords rs ++ rest)) 0
      simpa [byteAt_encodeRecord_id _ _ hid] using this
    have h1 : byteAt (pre ++ (encodeRecord r ++ (encodeRecords rs ++ rest)))
        (pre.length + 1) = r.seq := by
      rw [byteAt_append_add, byteAt_encodeRecord_seq _ _ hseq]
    have h2 : readU32 (pre ++ (encodeRecord r ++ (encodeRecords rs ++ rest)))
        (pre.length + 2) = r.rxTs := by
      rw [readU32_append_add, readU32_encodeRecord_rxTs _ _ hrx]
    simp only [List.length_cons, updateRemoteDataLoop, h0, h1, h2]
    cases hb : hasDistanceBit r with
    | false =>
      have hb2 : (r.seq &&& 128 != 0) = false := hb
      rw [hb2]
      simp only [Bool.false_eq_true, if_false]
      have hassoc : pre ++ (encodeRecord r ++ (encodeRecords rs ++ rest))
          = (pre ++ encodeRecord r) ++ (encodeRecords rs ++ rest) := by
        simp [List.append_assoc]
      have hlen : (pre ++ encodeRecord r).length = pre.length + 6 := by
        simp [encodeRecord_length, recordWidth, hb]
      have hrec := ih (pre ++ encodeRecord r) hw2
      rw [hlen, ← hassoc] at hrec
      rw [hrec]
      simp only [effectsOfRecords, recordEffects, hb, Bool.false_eq_true, if_false,
        List.map_cons, List.sum_cons, recordWidth, isValidTimeStamp_natCast]
      rw [Prod.mk.injEq]
      exact ⟨by omega, by simp [bne_iff_ne]⟩
    | true =>
      have hb2 : (r.seq &&& 128 != 0) = true := hb
      rw [hb2]
      simp only [if_true]
      have h6 : readU16 (pre ++ (encodeRecord r ++ (encodeRecords rs ++ rest)))
          (pre.length + 6) = r.distance := by
        rw [readU16_append_add, readU16_encodeRecord_distance _ _ hb hdist]
      rw [h6]
      have hassoc : pre ++ (encodeRecord r ++ (encodeRecords rs ++ rest))
          = (pre ++ encodeRecord r) ++ (encodeRecords rs ++ rest) := by
        simp [List.append_assoc]
      have hlen : (pre ++ encodeRecord r).length = pre.length + 8 := by
        simp [encodeRecord_length, recordWidth, hb]
      have hrec := ih (pre ++ encodeRecord r) hw2
      rw [hlen, ← hassoc] at hrec
      rw [hrec]
      simp only [effectsOfRecords, recordEffects, hb, if_true,
        List.map_cons, List.sum_cons, recordWidth, isValidTimeStamp_natCast]
      rw [Prod.mk.injEq]
      exact ⟨by omega, by simp [bne_iff_ne]⟩

lemma updateRemoteData_encodeFrame (stats : TdoaStatsEnv) (anchorId : Nat)
    (h : FrameHeader) (rs : List RemoteRecord) (hwf : wfFrame h rs) :
    updateRemoteData stats anchorId (encodeFrame h rs)
      = (7 + (rs.map recordWidth).sum, effectsOfRecords stats anchorId rs) := by
  obtain ⟨hp, hs, ht, hn, hr⟩ := hwf
  have hcount : byteAt (encodeFrame h rs) 6 = rs.length := by
    show rs.length % 256 = rs.length
    omega
  have hsplit : encodeFrame h rs
      = (h.ptype :: h.seq :: (u32le h.txTs ++ [rs.length])) ++ (encodeRecords rs ++ []) := by
    simp [encodeFrame]
  have hlen7 : (h.ptype :: h.seq :: (u32le h.txTs ++ [rs.length])).length = 7 := by
    simp [u32le]
  have hloop := updateRemoteDataLoop_encode stats anchorId rs
      (h.ptype :: h.seq :: (u32le h.txTs ++ [rs.length])) [] hr
  rw [hlen7] at hloop
  unfold updateRemoteData
  rw [hcount, hsplit, hloop]

/-- Claim C1: for every well-formed frame whose header declares the
records of `rs`, updateRemoteData returns exactly 7 plus the sum of the
per-record widths, where a record whose sequence byte has the high bit
set contributes 8 bytes and one with that bit clear contributes 6
bytes, each width chosen from that record's own bit. -/
theorem updateRemoteData_returns_header_plus_widths
    (stats : TdoaStatsEnv) (anchorId : Nat)
    (h : FrameHeader) (rs : List RemoteRecord) (hwf : wfFrame h rs) :
    (updateRemoteData stats anchorId (encodeFrame h rs)).1
      = 7 + (rs.map recordWidth).sum := by
  rw [updateRemoteData_encodeFrame stats anchorId h rs hwf]

lemma filter_rx_recordEffects (stats : TdoaStatsEnv) (anchorId : Nat)
    (r : RemoteRecord) :
    (recordEffects stats anchorId r).filter isSetRemoteRxTime
      = if r.rxTs = 0 then []
        else [CtxEffect.setRemoteRxTime r.id (r.rxTs : Int) (r.seq &&& 127)] := by
  unfold recordEffects
  by_cases h1 : r.rxTs = 0 <;> cases h2 : hasDistanceBit r <;>
    by_cases h3 : r.distance = 0 <;>
      simp [h1, h2, h3, List.filter_append,
        apply_ite (List.filter isSetRemoteRxTime), isSetRemoteRxTime]

lemma filter_tof_recordEffects (stats : TdoaStatsEnv) (anchorId : Nat)
    (r : RemoteRecord) :
    (recordEffects stats anchorId r).filter isSetTimeOfFlight
      = if hasDistanceBit r ∧ r.distance ≠ 0 then
          [CtxEffect.setTimeOfFlight r.id (r.distance : Int)]
        else [] := by
  unfold recordEffects
  by_cases h1 : r.rxTs = 0 <;> cases h2 : hasDistanceBit r <;>
    by_cases h3 : r.distance = 0 <;>
      simp [h1, h2, h3, List.filter_append,
        apply_ite (List.filter isSetTimeOfFlight), isSetTimeOfFlight]

/-- Claim C4: for every record of a well-formed decoded frame, a
record whose rx timestamp widens to zero produces no
tdoaStorageSetRemoteRxTime call for that neighbor, and a record with a
non-zero timestamp produces exactly one, storing that timestamp with
the low 7 bits of the record's sequence byte: the sub-trace of
setRemoteRxTime effects is exactly the per-record filterMap. -/
theorem updateRemoteData_remote_rx_updates (stats : TdoaStatsEnv) (anchorId : Nat)
    (h : FrameHeader) (rs : List RemoteRecord) (hwf : wfFrame h rs) :
    ((updateRemoteData stats anchorId (encodeFrame h rs)).2.filter isSetRemoteRxTime)
      = rs.filterMap (fun r =>
          if r.rxTs = 0 then none
          else some (CtxEffect.setRemoteRxTime r.id (r.rxTs : Int) (r.seq &&& 127))) := by
  rw [updateRemoteData_encodeFrame stats anchorId h rs hwf]
  clear hwf
  induction rs with
  | nil => rfl
  | cons r rs ih =>
    simp only [effectsOfRecords, List.filter_append, List.filterMap_cons]
    rw [filter_rx_recordEffects]
    by_cases h1 : r.rxTs = 0 <;> simp only [h1, if_pos, if_neg] <;> simp [ih, h1]

/-- Claim C4 witness: concrete instance with a non-zero and a zero
remote rx timestamp. -/
theorem updateRemoteData_remote_rx_updates_witness :
    wfFrame headerW recordsW ∧
    ((updateRemoteData stats0 0 (encodeFrame headerW recordsW)).2.filter isSetRemoteRxTime)
      = recordsW.filterMap (fun r =>
          if r.rxTs = 0 then none
          else some (CtxEffect.setRemoteRxTime r.id (r.rxTs : Int) (r.seq &&& 127))) :=
  ⟨by decide, updateRemoteData_remote_rx_updates stats0 0 headerW recordsW (by decide)⟩

/-- Claim C1 witness: the length formula evaluated on a concrete
well-formed frame mixing both record shapes. -/
theorem updateRemoteData_returns_header_plus_widths_witness :
    wfFrame headerW recordsW ∧
    (updateRemoteData stats0 0 (encodeFrame headerW recordsW)).1
      = 7 + (recordsW.map recordWidth).sum :=
  ⟨by decide,
   updateRemoteData_returns_header_plus_widths stats0 0 headerW recordsW (by decide)⟩

/-- Claim C5: in a well-formed decoded frame, a Full record whose
16-bit distance widens to zero produces no tdoaStorageSetTimeOfFlight
call, a Full record with a non-zero distance produces exactly one with
that value, and the consumed length still counts every Full record as
8 bytes (recordWidth depends only on the hasDistance bit, never on the
distance value). -/
theorem updateRemoteData_tof_updates (stats : TdoaStatsEnv) (anchorId : Nat)
    (h : FrameHeader) (rs : List RemoteRecord) (hwf : wfFrame h rs) :
    ((updateRemoteData stats anchorId (encodeFrame h rs)).2.filter isSetTimeOfFlight)
      = rs.filterMap (fun r =>
          if hasDistanceBit r ∧ r.distance ≠ 0 then
            some (CtxEffect.setTimeOfFlight r.id (r.distance : Int))
          else none) ∧
    (updateRemoteData stats anchorId (encodeFrame h rs)).1
      = 7 + (rs.map recordWidth).sum := by
  rw [updateRemoteData_encodeFrame stats anchorId h rs hwf]
  refine ⟨?_, rfl⟩
  clear hwf
  induction rs with
  | nil => rfl
  | cons r rs ih =>
    simp only [effectsOfRecords, List.filter_append, List.filterMap_cons]
    rw [filter_tof_recordEffects]
    by_cases h2 : hasDistanceBit r ∧ r.distance ≠ 0 <;>
      simp only [h2, if_pos, if_neg] <;> simp [ih, h2]

/-- Claim C5 witness: concrete instance with a Full record carrying a
zero distance next to one with a non-zero distance. -/
theorem updateRemoteData_tof_updates_witness :
    wfFrame headerW recordsW ∧
    (((updateRemoteData stats0 0 (encodeFrame headerW recordsW)).2.filter isSetTimeOfFlight)
        = recordsW.filterMap (fun r =>
            if hasDistanceBit r ∧ r.distance ≠ 0 then
              some (CtxEffect.setTimeOfFlight r.id (r.distance : Int))
            else none) ∧
      (updateRemoteData stats0 0 (encodeFrame headerW recordsW)).1
        = 7 + (recordsW.map recordWidth).sum) :=
  ⟨by decide, updateRemoteData_tof_updates stats0 0 headerW recordsW (by decide)⟩

/-- Claim C6: on the scenario frame (type 0x30, seq 0x05, txTs 1000,
two records: Full {id 7, seq 0x81, rxTs 500, distance 200} and Short
{id 9, seq 0x02, rxTs 300}) the decoder returns 21 and the context
updates are exactly: remote rx time 500 with sequence 1 for neighbor 7,
time of flight 200 for neighbor 7, and remote rx time 300 with
sequence 2 for neighbor 9 — in particular no time-of-flight update for
neighbor 9. -/
theorem updateRemoteData_scenario :
    updateRemoteData stats0 0 frame6
      = (21, [CtxEffect.setRemoteRxTime 7 500 1, CtxEffect.setTimeOfFlight 7 200,
              CtxEffect.setRemoteRxTime 9 300 2]) := by
  decide

/-- Claim C3: the source decoder trusts the declared record count.  On
the captured buffer bufC3, whose declared frame is the 7-byte header
with remoteCount 1 and no record bytes, it walks 6 stale bytes beyond
the declared frame, returns 13 (exceeding the 7-byte frame) and updates
the context from the stale bytes instead of aborting with no update. -/
theorem updateRemoteData_trusts_declared_count :
    updateRemoteData stats0 0 bufC3 = (13, [CtxEffect.setRemoteRxTime 5 1 2]) ∧
      bufC3.take 7 = [0x30, 0, 0, 0, 0, 0, 1] := by
  decide

/-- Claim C7 counterexample: on a frame with protocol type 0x31 from
source anchor 1 the receive handler is not a pure no-op: it still
counts the packet and writes the anchor-1 snr and power-difference
telemetry, so its effect trace is non-empty. -/
theorem rxcallback_nonTdoa_mutates_cex :
    (rxcallback 21 stats0 rxInputNonTdoa false).1
        = [RxEffect.countPacketReceived, RxEffect.logSnrPowerdiff 1] ∧
      (rxcallback 21 stats0 rxInputNonTdoa false).1 ≠ [] := by
  decide

/-- Claim C7 amended: for every received frame whose first payload byte
is not the TDOA3 tag, rxcallback performs no anchor-context lookup and
no decode, engine or LPP processing, and leaves rangingOk unchanged;
the only effects are the packetsReceived count and, for source anchors
1 and 2, the snr / power-difference telemetry writes that precede the
type check. -/
theorem rxcallback_nonTdoa_no_processing (macHdrLen : Nat) (stats : TdoaStatsEnv)
    (inp : RxInput) (st : Bool)
    (hty : byteAt inp.payload 0 ≠ PACKET_TYPE_TDOA3) :
    rxcallback macHdrLen stats inp st
      = (RxEffect.countPacketReceived ::
          (if inp.sourceAddress &&& 255 = 1 then [RxEffect.logSnrPowerdiff 1]
           else if inp.sourceAddress &&& 255 = 2 then [RxEffect.logSnrPowerdiff 2]
           else []), st) := by
  unfold rxcallback
  rw [if_neg hty]

/-- Claim C7 amended witness: the 0x31 frame from anchor 1. -/
theorem rxcallback_nonTdoa_no_processing_witness :
    byteAt rxInputNonTdoa.payload 0 ≠ PACKET_TYPE_TDOA3 ∧
    rxcallback 21 stats0 rxInputNonTdoa false
      = (RxEffect.countPacketReceived ::
          (if rxInputNonTdoa.sourceAddress &&& 255 = 1 then [RxEffect.logSnrPowerdiff 1]
           else if rxInputNonTdoa.sourceAddress &&& 255 = 2 then [RxEffect.logSnrPowerdiff 2]
           else []), false) :=
  ⟨by decide, rxcallback_nonTdoa_no_processing 21 stats0 rxInputNonTdoa false (by decide)⟩

/-- Claim C9: every event value outside the recognized four-element
set hits the ASSERT_FAILED default branch of the switch: the process
terminates and neither the transmit-or-receive post-processing nor the
statistics update runs (onEvent yields no action record at all). -/
theorem onEvent_unknown_event_asserts (env : EventEnv) (code : Nat) (st : Bool) :
    onEvent env (UwbEvent.unknown code) st = none := rfl

/-- Claim C2 counterexample: for a PacketSent event with an empty
outgoing queue the state machine does call setRadioInReceiveMode — the
queue check and receive re-arm run after every event, including
PacketSent, so the claimed absence of a re-arm for PacketSent is false. -/
theorem onEvent_packetSent_rearms_cex :
    onEvent envIdle UwbEvent.packetSent false
      = some ({ rxTrace := [], transmit := false, rearmReceive := true,
                statsUpdated := true }, false) := rfl

/-- Claim C2 amended: for every recognized event — PacketSent included —
exactly one of {transmit of the queued outgoing packet, explicit
receive re-arm} occurs, and which one is determined solely by whether
the single-slot outgoing queue is occupied; the PacketSent switch
branch itself performs no action (its rxcallback trace is empty). -/
theorem onEvent_recognized_exactly_one_action (env : EventEnv) (ev : UwbEvent)
    (st : Bool)
    (hev : ev = UwbEvent.packetReceived ∨ ev = UwbEvent.timeout ∨
           ev = UwbEvent.receiveTimeout ∨ ev = UwbEvent.packetSent) :
    ∃ acts st1, onEvent env ev st = some (acts, st1) ∧
      acts.transmit = env.lppQueued ∧ acts.rearmReceive = !env.lppQueued ∧
      acts.transmit ≠ acts.rearmReceive ∧
      (ev = UwbEvent.packetSent → acts.rxTrace = []) := by
  have hne : env.lppQueued ≠ !env.lppQueued := by
    cases env.lppQueued <;> decide
  rcases hev with h | h | h | h <;> subst h <;>
    exact ⟨_, _, rfl, rfl, rfl, hne, by simp [onEvent]⟩

/-- Claim C2 amended witness: a Timeout event on the idle environment. -/
theorem onEvent_recognized_exactly_one_action_witness :
    ∃ acts st1, onEvent envIdle UwbEvent.timeout false = some (acts, st1) ∧
      acts.transmit = envIdle.lppQueued ∧ acts.rearmReceive = !envIdle.lppQueued ∧
      acts.transmit ≠ acts.rearmReceive ∧
      (UwbEvent.timeout = UwbEvent.packetSent → acts.rxTrace = []) :=
  onEvent_recognized_exactly_one_action envIdle UwbEvent.timeout false
    (Or.inr (Or.inl rfl))

lemma rxcallback_snd (macHdrLen : Nat) (stats : TdoaStatsEnv) (inp : RxInput)
    (st : Bool) :
    (rxcallback macHdrLen stats inp st).2
      = (st || decide (byteAt inp.payload 0 = PACKET_TYPE_TDOA3)) := by
  unfold rxcallback
  by_cases h : byteAt inp.payload 0 = PACKET_TYPE_TDOA3 <;> simp [h]

lemma onEvent_rangingOk_step (env : EventEnv) (ev : UwbEvent) (st : Bool)
    (r : OnEventActions × Bool) (h : onEvent env ev st = some r) :
    r.2 = (st || (decide (ev = UwbEvent.packetReceived) &&
        decide (byteAt env.rx.payload 0 = PACKET_TYPE_TDOA3))) := by
  cases ev <;> simp [onEvent] at h <;> rw [← h] <;>
    simp [rxcallback_snd]

lemma runEvents_true_iff (evs : List (EventEnv × UwbEvent)) (st st1 : Bool)
    (h : runEvents evs st = some st1) :
    (st1 = true ↔ st = true ∨ ∃ p ∈ evs, p.2 = UwbEvent.packetReceived ∧
        byteAt p.1.rx.payload 0 = PACKET_TYPE_TDOA3) := by
  induction evs generalizing st with
  | nil =>
    simp only [runEvents, Option.some.injEq] at h
    subst h
    simp
  | cons p evs ih =>
    cases hon : onEvent p.1 p.2 st with
    | none => simp [runEvents, hon] at h
    | some r =>
      simp only [runEvents, hon] at h
      have hst := onEvent_rangingOk_step p.1 p.2 st r hon
      have hiff := ih r.2 h
      rw [hiff, hst]
      rw [List.exists_mem_cons_iff
        (fun q : EventEnv × UwbEvent => q.2 = UwbEvent.packetReceived ∧
          byteAt q.1.rx.payload 0 = PACKET_TYPE_TDOA3) p evs]
      simp only [Bool.or_eq_true, Bool.and_eq_true, decide_eq_true_eq]
      tauto

/-- Claim C8: rangingOk is false right after initialization, and after
any event sequence the process survives, it is true exactly when some
event of the sequence was a PacketReceived delivering a frame typed
with the TDOA3 tag — so it is latched by the first decoded TDOA3 frame
and never returns to false on later events or errors. -/
theorem rangingOk_monotone_latch :
    initRangingOk = false ∧
    ∀ (evs : List (EventEnv × UwbEvent)) (st1 : Bool),
      runEvents evs initRangingOk = some st1 →
      (st1 = true ↔ ∃ p ∈ evs, p.2 = UwbEvent.packetReceived ∧
          byteAt p.1.rx.payload 0 = PACKET_TYPE_TDOA3) := by
  refine ⟨rfl, fun evs st1 h => ?_⟩
  rw [runEvents_true_iff evs initRangingOk st1 h]
  simp [initRangingOk]

/-- Claim C8 witness: a single TDOA3 reception followed by a timeout
leaves rangingOk latched true. -/
theorem rangingOk_monotone_latch_witness :
    initRangingOk = false ∧
    (true = true ↔ ∃ p ∈ [(envRxTdoa, UwbEvent.packetReceived), (envIdle, UwbEvent.timeout)],
        p.2 = UwbEvent.packetReceived ∧
          byteAt p.1.rx.payload 0 = PACKET_TYPE_TDOA3) :=
  ⟨rangingOk_monotone_latch.1,
   rangingOk_monotone_latch.2
     [(envRxTdoa, UwbEvent.packetReceived), (envIdle, UwbEvent.timeout)] true
     (by decide)⟩

/-- Claim C10: when the trailing data after the ranging payload has
declared length exactly 1 and that single byte is the LPP short-packet
header tag, handleLppPacket still invokes handleLppShortPacket (it only
guards lppDataLength > 0), and the type byte that handler reads lies at
offset startOfLppData + 1, which equals the declared payload length —
one byte past the declared trailing data. -/
theorem handleLppPacket_reads_past_trailing (macHdrLen dataLength rangePacketLength : Nat)
    (payload : List Nat) (anchorId : Nat)
    (hlen : (dataLength : Int) - (macHdrLen : Int) - (rangePacketLength : Int) = 1)
    (hhdr : byteAt payload rangePacketLength = LPP_HEADER_SHORT_PACKET) :
    (handleLppPacket macHdrLen dataLength rangePacketLength payload anchorId).2
        = some (rangePacketLength + 1) ∧
      ((rangePacketLength : Int) + 1 = (dataLength : Int) - (macHdrLen : Int)) := by
  refine ⟨?_, by omega⟩
  unfold handleLppPacket
  rw [if_pos (by omega), if_pos hhdr]

/-- Claim C10 witness: a 29-byte frame with a 21-byte MAC header and a
7-byte ranging payload, whose single trailing byte is the tag. -/
theorem handleLppPacket_reads_past_trailing_witness :
    ((29 : Int) - (21 : Int) - (7 : Int) = 1 ∧
      byteAt payloadC10 7 = LPP_HEADER_SHORT_PACKET) ∧
    ((handleLppPacket 21 29 7 payloadC10 0).2 = some 8 ∧
      ((7 : Int) + 1 = (29 : Int) - (21 : Int))) :=
  ⟨⟨by decide, by decide⟩,
   handleLppPacket_reads_past_trailing 21 29 7 payloadC10 0 (by decide) (by decide)⟩
